import Mathlib

/-!
# Verification of `pytorch_toolbelt/modules/encoders/timm/efficient_net.py`

A shallow embedding of the channel-adaptation function
`make_n_channel_input_conv2d_same`, the per-variant encoder constructors
(`B0Encoder` .. `B7Encoder`, `MixNetXLEncoder`), the `no_stride`
stride/dilation rewrite, and the `forward` output selection, together with
theorems about their behaviour.

Modelling conventions:
* A weight tensor of shape `[O, C', kH, kW]` is modelled as a
  `List (List α)`: the outer list ranges over the `O` output channels, the
  inner list over the `C'` entries of the channel axis (dim 1), and each
  element of type `α` stands for one `kH × kW` spatial slice.  All the
  operations performed by the code (`torch.cat([w] * n, dim=1)`,
  `w[:, :n, ...]`) act only on the channel axis, uniformly per output
  channel, so this representation is exact for them.
* `math.ceil(in_channels / float(conv.in_channels))` is modelled as exact
  ceiling division on naturals, `(n + c - 1) / c`, which agrees with the
  float computation on all exactly-representable operands.
* `warnings.warn` is modelled by the `warned` flag of the result record.
* Channel counts are naturals; the Python `int` arguments the claims range
  over are non-negative in every reachable use.
-/

/-- A 2D convolution module (`nn.Conv2d` / `timm` `Conv2dSame`), with its
weight tensor's channel axis modelled explicitly.  `bias` records the Python
`conv.bias is not None` (presence of a bias term). -/
structure Conv2d (α : Type) where
  in_channels : Nat
  out_channels : Nat
  kernel_size : Nat × Nat
  stride : Nat × Nat
  padding : Nat × Nat
  dilation : Nat × Nat
  groups : Nat
  bias : Bool
  weight : List (List α)
  deriving Repr, DecidableEq

/-- The `**kwargs` dictionary accepted by `make_n_channel_input_conv2d_same`:
the keys the function reads with `kwargs.get(key, default)`. -/
structure Kwargs where
  kernel_size : Option (Nat × Nat) := none
  stride : Option (Nat × Nat) := none
  padding : Option (Nat × Nat) := none
  dilation : Option (Nat × Nat) := none
  groups : Option Nat := none
  bias : Option Bool := none
  deriving Repr, DecidableEq

/-- Result of `make_n_channel_input_conv2d_same`: the returned convolution
module plus whether `warnings.warn` fired on this call. -/
structure AdaptOutput (α : Type) where
  warned : Bool
  conv : Conv2d α
  deriving Repr, DecidableEq

/-- Embedding of `make_n_channel_input_conv2d_same` (efficient_net.py lines
24–53).  If the requested channel count equals the current one it warns and
returns the input module itself; otherwise it builds a `Conv2dSame` with the
hyperparameters taken from `kwargs` (falling back to the input conv's), and a
weight obtained from the original weight `w` by tiling the channel axis
`ceil(in_channels / conv.in_channels)` times and truncating to the first
`in_channels` entries (when growing), or by prefix truncation `w[:, 0:n, ...]`
(otherwise).  `mode` is accepted but never read. -/
def make_n_channel_input_conv2d_same (conv : Conv2d α) (in_channels : Nat)
    (mode : String) (kwargs : Kwargs) : AdaptOutput α :=
  if conv.in_channels = in_channels then
    { warned := true, conv := conv }
  else
    let new_conv : Conv2d α :=
      { in_channels := in_channels
        out_channels := conv.out_channels
        kernel_size := kwargs.kernel_size.getD conv.kernel_size
        stride := kwargs.stride.getD conv.stride
        padding := kwargs.padding.getD conv.padding
        dilation := kwargs.dilation.getD conv.dilation
        groups := kwargs.groups.getD conv.groups
        bias := kwargs.bias.getD conv.bias
        weight := [] }
    let w := conv.weight
    if in_channels > conv.in_channels then
      let n := (in_channels + conv.in_channels - 1) / conv.in_channels
      let w := w.map (fun row => (List.flatten (List.replicate n row)).take in_channels)
      { warned := false, conv := { new_conv with weight := w } }
    else
      let w := w.map (fun row => row.take in_channels)
      { warned := false, conv := { new_conv with weight := w } }

/-- One backbone block (timm `InvertedResidual`-style): the depthwise
convolution the `no_stride` rewrite targets, plus the block's remaining
convolutions, which the rewrite never touches. -/
structure Block (α : Type) where
  conv_dw : Conv2d α
  other_convs : List (Conv2d α)
  deriving Repr, DecidableEq

/-- The parts of the timm backbone object this adapter layer addresses: the
stem convolution (`encoder.conv_stem`) and the nested block groups
(`encoder.blocks[g][i]`). -/
structure Backbone (α : Type) where
  conv_stem : Conv2d α
  blocks : List (List (Block α))
  deriving Repr, DecidableEq

/-- In-place update of the `i`-th element of a list (no-op when out of
range); used to model Python attribute assignment through `blocks[g][i]`. -/
def modifyNth (f : α → α) : Nat → List α → List α
  | _, [] => []
  | 0, a :: as => f a :: as
  | n + 1, a :: as => a :: modifyNth f n as

/-- The assignments `conv_dw.stride = (1, 1); conv_dw.dilation = (2, 2)`
performed on one block's depthwise convolution. -/
def dilateBlock (blk : Block α) : Block α :=
  { blk with conv_dw := { blk.conv_dw with stride := (1, 1), dilation := (2, 2) } }

/-- The statement `blocks[g][0].conv_dw.stride = (1, 1);
blocks[g][0].conv_dw.dilation = (2, 2)` as a functional update of block
group `g`. -/
def dilateFirstBlock (g : Nat) (blocks : List (List (Block α))) :
    List (List (Block α)) :=
  modifyNth (modifyNth dilateBlock 0) g blocks

/-- The `no_stride` backbone mutation shared by the eight `B*Encoder`
constructors (e.g. efficient_net.py lines 70–74): the first depthwise
convolutions of block groups 5 and 3 get stride `(1, 1)` and dilation
`(2, 2)`. -/
def applyNoStride (b : Backbone α) : Backbone α :=
  { b with blocks := dilateFirstBlock 3 (dilateFirstBlock 5 b.blocks) }

/-- The eight EfficientNet size variants, each a separate encoder class in
the source. -/
inductive BVariant
  | B0 | B1 | B2 | B3 | B4 | B5 | B6 | B7
  deriving Repr, DecidableEq

/-- All nine encoder classes of the module: the eight EfficientNet size
variants plus the alternate-architecture `MixNetXLEncoder`. -/
inductive Variant
  | B (v : BVariant)
  | MixNetXL
  deriving Repr, DecidableEq

/-- The per-variant feature channel counts passed to
`EncoderModule.__init__` by each class. -/
def bChannels : BVariant → List Nat
  | .B0 => [16, 24, 40, 112, 320]
  | .B1 => [16, 24, 40, 112, 320]
  | .B2 => [16, 24, 48, 120, 352]
  | .B3 => [24, 32, 48, 136, 384]
  | .B4 => [24, 32, 56, 160, 448]
  | .B5 => [24, 40, 64, 176, 512]
  | .B6 => [32, 40, 72, 200, 576]
  | .B7 => [32, 48, 80, 224, 640]

/-- The `drop_path_rate` literal each constructor passes to its timm model
provider call, read off the nine call sites (0.05, 0.1 and 0.2 as exact
rationals). -/
def dropPathRate : Variant → ℚ
  | .B .B0 => 1 / 20
  | .B .B1 => 1 / 20
  | .B .B2 => 1 / 10
  | .B .B3 => 1 / 10
  | .B .B4 => 1 / 5
  | .B .B5 => 1 / 5
  | .B .B6 => 1 / 5
  | .B .B7 => 1 / 5
  | .MixNetXL => 1 / 5

/-- The arguments each encoder constructor hands to the external timm model
provider (`tf_efficientnet_b*_ns` / `mixnet_xl`); the activation module is
passed through opaquely and omitted. -/
structure ProviderArgs where
  pretrained : Bool
  features_only : Bool
  drop_path_rate : ℚ
  deriving Repr, DecidableEq

/-- The provider call made by variant `v`'s constructor:
`features_only=True` and the variant's baked-in drop-path constant. -/
def providerArgs (v : Variant) (pretrained : Bool) : ProviderArgs :=
  { pretrained := pretrained, features_only := true, drop_path_rate := dropPathRate v }

/-- Whether the encoder class's `__init__` accepts a `no_stride` keyword:
`B0Encoder` .. `B7Encoder` all do; `MixNetXLEncoder.__init__` (line 332)
takes only `pretrained`, `layers` and `act_layer`. -/
def acceptsNoStride : Variant → Bool
  | .B _ => true
  | .MixNetXL => false

/-- The state an encoder instance ends up holding after `__init__`: the
(possibly rewritten) backbone, and the channel/stride/requested-layer lists
handed to `EncoderModule.__init__`, which stores them (the requested layers
as `self._layers`). -/
structure EncoderState (α : Type) where
  encoder : Backbone α
  channels : List Nat
  strides : List Nat
  layers : List Nat
  deriving Repr, DecidableEq

/-- Embedding of the `__init__` body shared by the eight `B*Encoder`
classes (e.g. `B0Encoder.__init__`, lines 57–79), given the backbone the
external provider returned: start from strides `[2, 4, 8, 16, 32]`; if
`no_stride`, mutate the two depthwise convolutions and force stride entries
3 and 4 to 8. -/
def bEncoderInit (v : BVariant) (backbone : Backbone α) (layers : List Nat)
    (no_stride : Bool) : EncoderState α :=
  let strides : List Nat := [2, 4, 8, 16, 32]
  if no_stride then
    { encoder := applyNoStride backbone
      channels := bChannels v
      strides := (strides.set 3 8).set 4 8
      layers := layers }
  else
    { encoder := backbone
      channels := bChannels v
      strides := strides
      layers := layers }

/-- Embedding of `MixNetXLEncoder.__init__` (lines 332–339): no `no_stride`
parameter exists, the backbone is stored as built and the stride table stays
`[2, 4, 8, 16, 32]`. -/
def mixNetXLEncoderInit (backbone : Backbone α) (layers : List Nat) :
    EncoderState α :=
  { encoder := backbone
    channels := [40, 48, 64, 192, 320]
    strides := [2, 4, 8, 16, 32]
    layers := layers }

/-- Modelled from the spec: `_take` lives in
`pytorch_toolbelt/modules/encoders/common.py`, which is not under `src/`.
Per the spec's output-selection contract it returns `[elements[i] for i in
indexes]` — the element at each requested position, in the requested order —
and Python raises on an out-of-range index, modelled by `none`. -/
def _take (elements : List β) (indexes : List Nat) : Option (List β) :=
  indexes.mapM (fun i => elements.get? i)

/-- Embedding of the `forward` method shared by all nine encoder classes
(e.g. lines 81–83): the backbone's stage outputs `features` are selected by
`_take(features, self._layers)`.  The backbone call itself is external, so
`features` is taken as input. -/
def encoderForward (st : EncoderState α) (features : List β) : Option (List β) :=
  _take features st.layers

/-- Embedding of the `change_input_channels` method shared by all nine
encoder classes (e.g. lines 85–89): replace the stem convolution by the
adapter's result, mutating the encoder in place and returning it. -/
def change_input_channels (st : EncoderState α) (input_channels : Nat)
    (mode : String) (kwargs : Kwargs) : EncoderState α :=
  { st with
    encoder :=
      { st.encoder with
        conv_stem :=
          (make_n_channel_input_conv2d_same st.encoder.conv_stem input_channels
              mode kwargs).conv } }

/-! ## Helper lemmas about the channel-axis operations -/

lemma length_flatten_replicate (n : Nat) (row : List α) :
    (List.flatten (List.replicate n row)).length = n * row.length := by
  induction n with
  | zero => simp
  | succ k ih => simp [List.replicate_succ, ih, Nat.succ_mul, Nat.mul_succ]; ring

lemma le_ceilDiv_mul (N C : Nat) (hC : 0 < C) : N ≤ (N + C - 1) / C * C := by
  rw [Nat.mul_comm]
  have h1 := Nat.div_add_mod (N + C - 1) C
  have h2 := Nat.mod_lt (N + C - 1) hC
  omega

lemma one_le_ceilDiv (N C : Nat) (hC : 0 < C) (hN : 0 < N) :
    1 ≤ (N + C - 1) / C := by
  rw [Nat.le_div_iff_mul_le hC]
  omega

lemma flatten_replicate_take_len (n : Nat) (row : List α) (C : Nat)
    (hC : row.length = C) (hn : 1 ≤ n) :
    (List.flatten (List.replicate n row)).take C = row := by
  subst hC
  cases n with
  | zero => omega
  | succ k =>
    rw [List.replicate_succ, List.flatten_cons]
    simp

lemma get?_flatten_replicate (row : List α) (n : Nat) :
    ∀ j, j < n * row.length →
      (List.flatten (List.replicate n row)).get? j = row.get? (j % row.length) := by
  induction n with
  | zero => intro j h; exact absurd h (by omega)
  | succ k ih =>
    intro j h
    rw [List.replicate_succ, List.flatten_cons]
    by_cases hj : j < row.length
    · have h1 : (row ++ List.flatten (List.replicate k row)).get? j = row.get? j := by
        simp [List.get?_eq_getElem?, List.getElem?_append, hj]
      rw [h1, Nat.mod_eq_of_lt hj]
    · push_neg at hj
      have h1 : (row ++ List.flatten (List.replicate k row)).get? j =
          (List.flatten (List.replicate k row)).get? (j - row.length) := by
        simp [List.get?_eq_getElem?, List.getElem?_append_right, hj]
      have h2 : j - row.length < k * row.length := by
        have hx : (k + 1) * row.length = k * row.length + row.length := by ring
        omega
      rw [h1, ih _ h2, ← Nat.mod_eq_sub_mod hj]

/-! ## Claims about the channel adapter -/

/-- C1: for every Conv2d with `C = conv.in_channels` input channels (weight
channel axis of length `C`) and every `N > C`, the adapter builds the new
weight by concatenating `ceil(N / C)` copies of the original along the
channel axis and truncating to the first `N` channels: every output row has
length exactly `N`, its first `C` entries are the original row, and entry
`j` is original entry `j mod C` (cyclic tiling starting at index 0). -/
theorem C1_grow_tiles_and_truncates (conv : Conv2d α) (N : Nat)
    (mode : String) (kwargs : Kwargs)
    (hC : 0 < conv.in_channels) (hN : conv.in_channels < N)
    (hw : ∀ row ∈ conv.weight, row.length = conv.in_channels) :
    (make_n_channel_input_conv2d_same conv N mode kwargs).conv.in_channels = N ∧
    List.Forall₂
      (fun newRow oldRow =>
        newRow.length = N ∧
        newRow.take conv.in_channels = oldRow ∧
        ∀ j, j < N → newRow.get? j = oldRow.get? (j % conv.in_channels))
      (make_n_channel_input_conv2d_same conv N mode kwargs).conv.weight
      conv.weight := by
  have hne : ¬ conv.in_channels = N := by omega
  have hgt : N > conv.in_channels := hN
  simp only [make_n_channel_input_conv2d_same, if_neg hne, if_pos hgt]
  refine ⟨by trivial, ?_⟩
  rw [List.forall₂_map_left_iff]
  refine List.forall₂_same.2 (fun row hrow => ?_)
  have hlen := hw row hrow
  have hmul : N ≤ (N + conv.in_channels - 1) / conv.in_channels * row.length := by
    rw [hlen]; exact le_ceilDiv_mul N conv.in_channels hC
  refine ⟨?_, ?_, ?_⟩
  · rw [List.length_take, length_flatten_replicate]
    omega
  · rw [List.take_take, Nat.min_eq_left hN.le]
    exact flatten_replicate_take_len _ row conv.in_channels hlen
      (one_le_ceilDiv N conv.in_channels hC (by omega))
  · intro j hj
    have hjt : (((List.flatten
        (List.replicate ((N + conv.in_channels - 1) / conv.in_channels) row)).take
          N).get? j) =
        (List.flatten
          (List.replicate ((N + conv.in_channels - 1) / conv.in_channels) row)).get? j := by
      simp [List.get?_eq_getElem?, List.getElem?_take, hj]
    rw [hjt, get?_flatten_replicate row _ j (by omega), hlen]

/-- A concrete 3-input-channel convolution used to instantiate theorems with
hypotheses: one output channel, weight row `[7, 8, 9]` (one entry per input
channel). -/
def demoConv3 : Conv2d Nat :=
  { in_channels := 3
    out_channels := 1
    kernel_size := (3, 3)
    stride := (2, 2)
    padding := (1, 1)
    dilation := (1, 1)
    groups := 1
    bias := false
    weight := [[7, 8, 9]] }

/-- Witness for C1 at `demoConv3` and `new_in_channels = 7`
(`ceil(7 / 3) = 3` tiles, truncated to 7 channels). -/
theorem C1_grow_witness :
    0 < demoConv3.in_channels ∧ demoConv3.in_channels < 7 ∧
    (∀ row ∈ demoConv3.weight, row.length = demoConv3.in_channels) ∧
    ((make_n_channel_input_conv2d_same demoConv3 7 "auto" {}).conv.in_channels = 7 ∧
      List.Forall₂
        (fun newRow oldRow =>
          newRow.length = 7 ∧
          newRow.take demoConv3.in_channels = oldRow ∧
          ∀ j, j < 7 → newRow.get? j = oldRow.get? (j % demoConv3.in_channels))
        (make_n_channel_input_conv2d_same demoConv3 7 "auto" {}).conv.weight
        demoConv3.weight) :=
  ⟨by decide, by decide, by decide,
    C1_grow_tiles_and_truncates demoConv3 7 "auto" {} (by decide) (by decide)
      (by decide)⟩

/-- C2: for every Conv2d with `C = conv.in_channels` input channels (weight
channel axis of length `C`) and every `N` with `1 ≤ N < C`, the adapter
performs pure prefix truncation: every output row has length exactly `N` and
equals the first `N` entries of the corresponding original row (for `N = 1`
this keeps only channel 0). -/
theorem C2_shrink_is_prefix_truncation (conv : Conv2d α) (N : Nat)
    (mode : String) (kwargs : Kwargs)
    (hN1 : 1 ≤ N) (hNC : N < conv.in_channels)
    (hw : ∀ row ∈ conv.weight, row.length = conv.in_channels) :
    (make_n_channel_input_conv2d_same conv N mode kwargs).conv.in_channels = N ∧
    List.Forall₂
      (fun newRow oldRow => newRow.length = N ∧ newRow = oldRow.take N)
      (make_n_channel_input_conv2d_same conv N mode kwargs).conv.weight
      conv.weight := by
  have hne : ¬ conv.in_channels = N := by omega
  have hngt : ¬ N > conv.in_channels := by omega
  simp only [make_n_channel_input_conv2d_same, if_neg hne, if_neg hngt]
  refine ⟨by trivial, ?_⟩
  rw [List.forall₂_map_left_iff]
  refine List.forall₂_same.2 (fun row hrow => ?_)
  have hlen := hw row hrow
  refine ⟨?_, rfl⟩
  rw [List.length_take, hlen]
  omega

/-- Witness for C2 at `demoConv3` and `new_in_channels = 1`: the output
channel axis is exactly channel 0 of the original. -/
theorem C2_shrink_witness :
    1 ≤ 1 ∧ 1 < demoConv3.in_channels ∧
    (∀ row ∈ demoConv3.weight, row.length = demoConv3.in_channels) ∧
    ((make_n_channel_input_conv2d_same demoConv3 1 "auto" {}).conv.in_channels = 1 ∧
      List.Forall₂
        (fun newRow oldRow => newRow.length = 1 ∧ newRow = oldRow.take 1)
        (make_n_channel_input_conv2d_same demoConv3 1 "auto" {}).conv.weight
        demoConv3.weight) :=
  ⟨by decide, by decide, by decide,
    C2_shrink_is_prefix_truncation demoConv3 1 "auto" {} (by decide) (by decide)
      (by decide)⟩

/-- C3: calling the adapter with `new_in_channels` equal to the conv's
current `in_channels` emits the spurious-call warning and returns the very
same input module, unchanged and without failing. -/
theorem C3_spurious_call_warns_and_returns_input (conv : Conv2d α)
    (mode : String) (kwargs : Kwargs) :
    make_n_channel_input_conv2d_same conv conv.in_channels mode kwargs =
      { warned := true, conv := conv } := by
  simp [make_n_channel_input_conv2d_same]

/-- C4 (counterexample): the claim says `new_in_channels < 1` fails with
`InvalidArgument`, but the function body (lines 24–53) contains no such
check: at `new_in_channels = 0` on a 3-channel conv it returns a rebuilt
module with an empty weight channel axis instead of failing. -/
theorem C4_counterexample_zero_channels_returns_module :
    (make_n_channel_input_conv2d_same demoConv3 0 "auto" {}).warned = false ∧
    (make_n_channel_input_conv2d_same demoConv3 0 "auto" {}).conv.in_channels = 0 ∧
    (make_n_channel_input_conv2d_same demoConv3 0 "auto" {}).conv.weight = [[]] := by
  decide

/-- C4 (amended): `make_n_channel_input_conv2d_same` performs no
channel-count validation; for `new_in_channels = 0` (the only natural
`< 1`) on any conv with nonzero `in_channels` it does not fail and returns a
rebuilt module whose weight channel axis is empty (prefix truncation to 0
channels). -/
theorem C4_no_invalid_argument_check (conv : Conv2d α) (mode : String)
    (kwargs : Kwargs) (h : conv.in_channels ≠ 0) :
    (make_n_channel_input_conv2d_same conv 0 mode kwargs).warned = false ∧
    (make_n_channel_input_conv2d_same conv 0 mode kwargs).conv.in_channels = 0 ∧
    (make_n_channel_input_conv2d_same conv 0 mode kwargs).conv.weight =
      conv.weight.map (fun _ => ([] : List α)) := by
  have hne : ¬ conv.in_channels = 0 := h
  have hngt : ¬ 0 > conv.in_channels := by omega
  simp [make_n_channel_input_conv2d_same, if_neg hne, if_neg hngt]

/-- Witness for the amended C4 at `demoConv3`. -/
theorem C4_no_invalid_argument_check_witness :
    demoConv3.in_channels ≠ 0 ∧
    ((make_n_channel_input_conv2d_same demoConv3 0 "auto" {}).warned = false ∧
      (make_n_channel_input_conv2d_same demoConv3 0 "auto" {}).conv.in_channels = 0 ∧
      (make_n_channel_input_conv2d_same demoConv3 0 "auto" {}).conv.weight =
        demoConv3.weight.map (fun _ => ([] : List Nat))) :=
  ⟨by decide, C4_no_invalid_argument_check demoConv3 "auto" {} (by decide)⟩

/-- C10: the `mode` parameter of `make_n_channel_input_conv2d_same` and of
`change_input_channels` is never read — any two mode values give identical
results for every conv, channel count and kwargs. -/
theorem C10_mode_is_never_read (α : Type) :
    (∀ (conv : Conv2d α) (n : Nat) (m₁ m₂ : String) (kwargs : Kwargs),
      make_n_channel_input_conv2d_same conv n m₁ kwargs =
        make_n_channel_input_conv2d_same conv n m₂ kwargs) ∧
    (∀ (st : EncoderState α) (n : Nat) (m₁ m₂ : String) (kwargs : Kwargs),
      change_input_channels st n m₁ kwargs =
        change_input_channels st n m₂ kwargs) :=
  ⟨fun _ _ _ _ _ => rfl, fun _ _ _ _ _ => rfl⟩

/-! ## Helper lemmas about indexed in-place updates -/

lemma modifyNth_get?_self (f : α → α) : ∀ (n : Nat) (l : List α),
    (modifyNth f n l).get? n = (l.get? n).map f
  | n, [] => by cases n <;> rfl
  | 0, _ :: _ => rfl
  | n + 1, _ :: as => modifyNth_get?_self f n as

lemma modifyNth_get?_ne (f : α → α) : ∀ (n m : Nat) (l : List α), m ≠ n →
    (modifyNth f n l).get? m = l.get? m
  | n, _, [], _ => by cases n <;> rfl
  | 0, 0, _ :: _, h => absurd rfl h
  | 0, _ + 1, _ :: _, _ => rfl
  | _ + 1, 0, _ :: _, _ => rfl
  | n + 1, m + 1, _ :: as, h => modifyNth_get?_ne f n m as (by omega)

/-! ## Claims about the encoder constructors and the no-stride rewrite -/

/-- C5: every EfficientNet size-variant encoder built with `no_stride=True`
ends up with stride table exactly `[2, 4, 8, 8, 8]` (positions 3 and 4 of
the default `[2, 4, 8, 16, 32]` forced to 8, positions 0–2 unchanged), and
with `no_stride=False` the table stays `[2, 4, 8, 16, 32]`. -/
theorem C5_no_stride_stride_table (α : Type) :
    ∀ (v : BVariant) (b : Backbone α) (layers : List Nat),
      (bEncoderInit v b layers true).strides = [2, 4, 8, 8, 8] ∧
      (bEncoderInit v b layers false).strides = [2, 4, 8, 16, 32] :=
  fun _ _ _ => ⟨rfl, rfl⟩

/-- C6: constructing any EfficientNet size variant with `no_stride=True`
mutates exactly the first blocks of backbone block groups 5 and 3: their
depthwise convolutions get stride `(1, 1)` and dilation `(2, 2)` with every
other field kept, the stem is untouched, and every other `(group, index)`
block is returned unchanged. -/
theorem C6_no_stride_mutates_exactly_two_convs (v : BVariant) (b : Backbone α)
    (layers : List Nat) (blk5 blk3 : Block α)
    (h5 : (b.blocks.get? 5).bind (fun g => g.get? 0) = some blk5)
    (h3 : (b.blocks.get? 3).bind (fun g => g.get? 0) = some blk3) :
    (bEncoderInit v b layers true).encoder.conv_stem = b.conv_stem ∧
    ((bEncoderInit v b layers true).encoder.blocks.get? 5).bind (fun g => g.get? 0) =
      some { blk5 with
        conv_dw := { blk5.conv_dw with stride := (1, 1), dilation := (2, 2) } } ∧
    ((bEncoderInit v b layers true).encoder.blocks.get? 3).bind (fun g => g.get? 0) =
      some { blk3 with
        conv_dw := { blk3.conv_dw with stride := (1, 1), dilation := (2, 2) } } ∧
    ∀ g i, ¬(g = 5 ∧ i = 0) → ¬(g = 3 ∧ i = 0) →
      ((bEncoderInit v b layers true).encoder.blocks.get? g).bind (fun grp => grp.get? i) =
        (b.blocks.get? g).bind (fun grp => grp.get? i) := by
  obtain ⟨grp5, e5, f5⟩ : ∃ grp, b.blocks.get? 5 = some grp ∧ grp.get? 0 = some blk5 := by
    cases e : b.blocks.get? 5 with
    | none => rw [e] at h5; simp at h5
    | some g => rw [e] at h5; exact ⟨g, rfl, h5⟩
  obtain ⟨grp3, e3, f3⟩ : ∃ grp, b.blocks.get? 3 = some grp ∧ grp.get? 0 = some blk3 := by
    cases e : b.blocks.get? 3 with
    | none => rw [e] at h3; simp at h3
    | some g => rw [e] at h3; exact ⟨g, rfl, h3⟩
  have hinit : (bEncoderInit v b layers true).encoder = applyNoStride b := rfl
  rw [hinit]
  have g5eq : (dilateFirstBlock 5 b.blocks).get? 5 =
      some (modifyNth dilateBlock 0 grp5) := by
    rw [dilateFirstBlock, modifyNth_get?_self, e5]; rfl
  have g3keep : (dilateFirstBlock 5 b.blocks).get? 3 = some grp3 := by
    rw [dilateFirstBlock, modifyNth_get?_ne _ 5 3 _ (by omega), e3]
  refine ⟨rfl, ?_, ?_, ?_⟩
  · show ((dilateFirstBlock 3 (dilateFirstBlock 5 b.blocks)).get? 5).bind
      (fun g => g.get? 0) = _
    rw [dilateFirstBlock, modifyNth_get?_ne _ 3 5 _ (by omega), g5eq]
    show (modifyNth dilateBlock 0 grp5).get? 0 = _
    rw [modifyNth_get?_self, f5]
    rfl
  · show ((dilateFirstBlock 3 (dilateFirstBlock 5 b.blocks)).get? 3).bind
      (fun g => g.get? 0) = _
    rw [dilateFirstBlock, modifyNth_get?_self, g3keep]
    show (modifyNth dilateBlock 0 grp3).get? 0 = _
    rw [modifyNth_get?_self, f3]
    rfl
  · intro g i hg5 hg3
    show ((dilateFirstBlock 3 (dilateFirstBlock 5 b.blocks)).get? g).bind
      (fun grp => grp.get? i) = _
    by_cases hG5 : g = 5
    · subst hG5
      have hi : i ≠ 0 := fun h => hg5 ⟨rfl, h⟩
      rw [dilateFirstBlock, modifyNth_get?_ne _ 3 5 _ (by omega), g5eq, e5]
      show (modifyNth dilateBlock 0 grp5).get? i = grp5.get? i
      exact modifyNth_get?_ne _ 0 i _ hi
    · by_cases hG3 : g = 3
      · subst hG3
        have hi : i ≠ 0 := fun h => hg3 ⟨rfl, h⟩
        rw [dilateFirstBlock, modifyNth_get?_self, g3keep, e3]
        show (modifyNth dilateBlock 0 grp3).get? i = grp3.get? i
        exact modifyNth_get?_ne _ 0 i _ hi
      · rw [dilateFirstBlock, modifyNth_get?_ne _ 3 g _ hG3]
        rw [dilateFirstBlock, modifyNth_get?_ne _ 5 g _ hG5]

/-- A concrete backbone block whose depthwise convolution has stride 2, as
the targeted blocks do before the rewrite. -/
def demoBlock : Block Nat :=
  { conv_dw := demoConv3, other_convs := [demoConv3] }

/-- A concrete backbone with 7 single-block groups, mirroring the seven
block groups of the timm EfficientNet trunk. -/
def demoBackbone : Backbone Nat :=
  { conv_stem := demoConv3
    blocks :=
      [[demoBlock], [demoBlock], [demoBlock], [demoBlock], [demoBlock],
        [demoBlock], [demoBlock]] }

/-- Witness for C6 at the concrete 7-group backbone. -/
theorem C6_no_stride_witness :
    ((demoBackbone.blocks.get? 5).bind (fun g => g.get? 0) = some demoBlock) ∧
    ((demoBackbone.blocks.get? 3).bind (fun g => g.get? 0) = some demoBlock) ∧
    ((bEncoderInit BVariant.B0 demoBackbone [1, 2, 3, 4] true).encoder.conv_stem =
        demoBackbone.conv_stem ∧
      ((bEncoderInit BVariant.B0 demoBackbone [1, 2, 3, 4] true).encoder.blocks.get? 5).bind
          (fun g => g.get? 0) =
        some { demoBlock with
          conv_dw := { demoBlock.conv_dw with stride := (1, 1), dilation := (2, 2) } } ∧
      ((bEncoderInit BVariant.B0 demoBackbone [1, 2, 3, 4] true).encoder.blocks.get? 3).bind
          (fun g => g.get? 0) =
        some { demoBlock with
          conv_dw := { demoBlock.conv_dw with stride := (1, 1), dilation := (2, 2) } } ∧
      ∀ g i, ¬(g = 5 ∧ i = 0) → ¬(g = 3 ∧ i = 0) →
        ((bEncoderInit BVariant.B0 demoBackbone [1, 2, 3, 4] true).encoder.blocks.get? g).bind
            (fun grp => grp.get? i) =
          (demoBackbone.blocks.get? g).bind (fun grp => grp.get? i)) :=
  ⟨rfl, rfl,
    C6_no_stride_mutates_exactly_two_convs BVariant.B0 demoBackbone [1, 2, 3, 4]
      demoBlock demoBlock rfl rfl⟩

/-! ## Claims about forward output selection -/

lemma mapM_get?_spec (elements : List β) :
    ∀ indexes : List Nat, (∀ i ∈ indexes, i < elements.length) →
      ∃ out, indexes.mapM (fun i => elements.get? i) = some out ∧
        out.length = indexes.length ∧
        List.Forall₂ (fun i y => elements.get? i = some y) indexes out := by
  intro indexes
  induction indexes with
  | nil => exact fun _ => ⟨[], rfl, rfl, List.Forall₂.nil⟩
  | cons i is ih =>
    intro h
    obtain ⟨out, hout, hlen, hfa⟩ := ih (fun j hj => h j (List.mem_cons_of_mem _ hj))
    have hi : i < elements.length := h i (List.mem_cons_self _ _)
    obtain ⟨y, hy⟩ : ∃ y, elements.get? i = some y :=
      ⟨elements[i], by simp [List.get?_eq_getElem?, List.getElem?_eq_some_iff, hi]⟩
    refine ⟨y :: out, ?_, by simp [hlen], List.Forall₂.cons hy hfa⟩
    rw [List.mapM_cons, hy, hout]
    rfl

/-- C7: `forward` is a positional index-and-reorder over the backbone's
stage outputs: for any requested index sequence whose entries are all in
range, it returns exactly one output per requested index, in the requested
order, each being the stage output at that index. -/
theorem C7_forward_positional_selection (st : EncoderState α) (features : List β)
    (h : ∀ i ∈ st.layers, i < features.length) :
    ∃ out, encoderForward st features = some out ∧
      out.length = st.layers.length ∧
      List.Forall₂ (fun i y => features.get? i = some y) st.layers out :=
  mapM_get?_spec features st.layers h

/-- A concrete encoder state requesting stages `[4, 2]` of a 5-stage
backbone. -/
def demoEncoderState : EncoderState Nat :=
  bEncoderInit BVariant.B0 demoBackbone [4, 2] false

/-- Witness for C7: with requested stages `[4, 2]` and 5 stage outputs,
`forward` returns exactly 2 tensors, ordered `[stage-4 output, stage-2
output]`. -/
theorem C7_forward_witness :
    (∀ i ∈ demoEncoderState.layers, i < ([10, 20, 30, 40, 50] : List Nat).length) ∧
    ∃ out, encoderForward demoEncoderState ([10, 20, 30, 40, 50] : List Nat) = some out ∧
      out.length = demoEncoderState.layers.length ∧
      List.Forall₂ (fun i y => ([10, 20, 30, 40, 50] : List Nat).get? i = some y)
        demoEncoderState.layers out :=
  ⟨by decide,
    C7_forward_positional_selection demoEncoderState [10, 20, 30, 40, 50] (by decide)⟩

/-! ## Claims about per-variant constants and constructor signatures -/

/-- C8 (counterexample): the claim's table assigns drop-path rate 0.1 to the
B1 variant, but `B1Encoder.__init__` passes `drop_path_rate=0.05` to its
provider call. -/
theorem C8_counterexample_b1_rate :
    (providerArgs (Variant.B BVariant.B1) true).drop_path_rate ≠ (1 / 10 : ℚ) := by
  norm_num [providerArgs, dropPathRate]

/-- C8 (amended): the drop-path rates passed to the backbone constructors
are 0.05, 0.05, 0.1, 0.1, 0.2, 0.2, 0.2, 0.2 for B0..B7 and 0.2 for
MixNetXL, and every constructor passes exactly its variant's baked-in
constant. -/
theorem C8_drop_path_rates :
    dropPathRate (.B .B0) = 1 / 20 ∧ dropPathRate (.B .B1) = 1 / 20 ∧
    dropPathRate (.B .B2) = 1 / 10 ∧ dropPathRate (.B .B3) = 1 / 10 ∧
    dropPathRate (.B .B4) = 1 / 5 ∧ dropPathRate (.B .B5) = 1 / 5 ∧
    dropPathRate (.B .B6) = 1 / 5 ∧ dropPathRate (.B .B7) = 1 / 5 ∧
    dropPathRate .MixNetXL = 1 / 5 ∧
    ∀ (v : Variant) (p : Bool), (providerArgs v p).drop_path_rate = dropPathRate v :=
  ⟨rfl, rfl, rfl, rfl, rfl, rfl, rfl, rfl, rfl, fun _ _ => rfl⟩

/-- C9 (counterexample): not every encoder facade accepts a `no_stride`
flag — `MixNetXLEncoder.__init__` has no such parameter. -/
theorem C9_counterexample_mixnet_lacks_flag :
    acceptsNoStride Variant.MixNetXL = false ∧
    ¬ ∀ v : Variant, acceptsNoStride v = true :=
  ⟨rfl, fun h => by simpa [acceptsNoStride] using h Variant.MixNetXL⟩

/-- C9 (amended): the eight EfficientNet size-variant facades accept a
`no_stride` flag, and setting it applies the stride/dilation rewrite to the
freshly built backbone and forces the stride table to `[2, 4, 8, 8, 8]`;
`MixNetXLEncoder` has no such flag, stores the backbone as built and keeps
the stride table `[2, 4, 8, 16, 32]`. -/
theorem C9_no_stride_flag_coverage (α : Type) :
    (∀ v : BVariant, acceptsNoStride (Variant.B v) = true) ∧
    (∀ (v : BVariant) (b : Backbone α) (layers : List Nat),
      (bEncoderInit v b layers true).encoder = applyNoStride b ∧
      (bEncoderInit v b layers true).strides = [2, 4, 8, 8, 8] ∧
      (bEncoderInit v b layers false).encoder = b) ∧
    acceptsNoStride Variant.MixNetXL = false ∧
    (∀ (b : Backbone α) (layers : List Nat),
      (mixNetXLEncoderInit b layers).encoder = b ∧
      (mixNetXLEncoderInit b layers).strides = [2, 4, 8, 16, 32]) :=
  ⟨fun _ => rfl, fun _ _ _ => ⟨rfl, rfl, rfl⟩, rfl, fun _ _ => ⟨rfl, rfl⟩⟩
